import Mathlib

/-!
Verification of the MT4 multi-account monitor server (src/server.py).

The embedding models the Python module shallowly:
* JSON dict fields become Option-valued record fields (none = key absent);
* Python floats become rationals, with round(x, 2) modelled as
  round-half-to-even on hundredths;
* the two module-level dicts (accounts, alerted) become association lists
  with replace/erase operations mirroring dict assignment and pop;
* the background thread body for one pass over the accounts is the
  function monitor_cycle; notifications record the send_telegram calls it
  makes;
* the HTTP handlers receive_report, delete_account and health become
  functions from their inputs and the shared state to a response and the
  new state.
-/

namespace MT4

/-- Rounding of a rational to the nearest integer, ties to even
(the model of Python round applied to an exact value). -/
def round_half_even (q : ℚ) : ℤ :=
  if q - ⌊q⌋ < 1/2 then ⌊q⌋
  else if 1/2 < q - ⌊q⌋ then ⌊q⌋ + 1
  else if 2 ∣ ⌊q⌋ then ⌊q⌋ else ⌊q⌋ + 1

/-- Python round(x, 2): round to 2 decimal places. -/
def round2 (q : ℚ) : ℚ := (round_half_even (q * 100) : ℚ) / 100

/-- One entry of the baskets list of a report
(src/server.py lines 48-51). -/
structure Basket where
  buy_profit : Option ℚ
  sell_profit : Option ℚ
  net_profit : Option ℚ
deriving DecidableEq

/-- A JSON account record as the server reads it: every key the code
touches, Option-valued because the client may omit it. -/
structure Account where
  account_id : Option String
  balance : Option ℚ
  equity : Option ℚ
  margin : Option ℚ
  free_margin : Option ℚ
  floating : Option ℚ
  margin_level : Option ℚ
  currency : Option String
  broker : Option String
  baskets : Option (List Basket)
  is_cent : Option Bool
  currency_display : Option String
  last_update : Option String
deriving DecidableEq

/-- The JSON object with none of the modelled keys: the empty dict. -/
def emptyAccount : Account :=
  ⟨none, none, none, none, none, none, none, none, none, none, none, none, none⟩

/-- Python truthiness of the decoded body: an empty dict is falsy
(src/server.py line 147, if not data). -/
def Account.isEmptyDict (a : Account) : Bool :=
  a.account_id.isNone && a.balance.isNone && a.equity.isNone &&
  a.margin.isNone && a.free_margin.isNone && a.floating.isNone &&
  a.margin_level.isNone && a.currency.isNone && a.broker.isNone &&
  a.baskets.isNone && a.is_cent.isNone && a.currency_display.isNone &&
  a.last_update.isNone

/-- CENT_CURRENCIES (src/server.py line 37). -/
def CENT_CURRENCIES : List String :=
  ["USC", "USc", "usc", "cent", "CENT", "ZAc", "GBp"]

/-- The per-basket part of normalize_account (src/server.py 48-51). -/
def normBasket (b : Basket) : Basket :=
  { buy_profit := some (round2 (b.buy_profit.getD 0 / 100)),
    sell_profit := some (round2 (b.sell_profit.getD 0 / 100)),
    net_profit := some (round2 (b.net_profit.getD 0 / 100)) }

/-- normalize_account (src/server.py 39-56).  The Python code mutates the
dict in place and returns it; here the returned record is the result. -/
def normalize_account (data : Account) : Account :=
  let currency := data.currency.getD "USD"
  if currency ∈ CENT_CURRENCIES then
    { data with
      is_cent := some true,
      balance := some (round2 (data.balance.getD 0 / 100)),
      equity := some (round2 (data.equity.getD 0 / 100)),
      margin := some (round2 (data.margin.getD 0 / 100)),
      free_margin := some (round2 (data.free_margin.getD 0 / 100)),
      floating := some (round2 (data.floating.getD 0 / 100)),
      baskets := data.baskets.map (fun bs => bs.map normBasket),
      currency_display := some "USD (¢)" }
  else
    { data with
      is_cent := some false,
      currency_display := some currency }

/-- send_telegram (src/server.py 61-73): returns the (chat_id, text) pair
posted to the Telegram API, or none when the function returns without
sending because token or chat id is empty (Python falsy strings). -/
def send_telegram (token chat message : String) : Option (String × String) :=
  if token = "" ∨ chat = "" then none
  else some (chat, message)

/-- The telegram field of the GET /health response
(src/server.py line 203). -/
def health_telegram (token : String) : String :=
  if token ≠ "" then "configured" else "not set"

/-- Alert tier implicit in the branch structure of the monitor loop
(src/server.py 102-127). -/
inductive Tier
  | unknown
  | danger
  | warn
  | ok
deriving DecidableEq

/-- The risk evaluation the monitor applies to a margin level
(src/server.py 102, 105, 116, 126): ml <= 0 is unknown, then the
danger/warn thresholds in order. -/
def evaluate (ml dangerT warnT : ℚ) : Tier :=
  if ml ≤ 0 then .unknown
  else if ml < dangerT then .danger
  else if ml < warnT then .warn
  else .ok

/-! ### The shared tables

Python dicts keyed by strings become association lists; lookupT is
dict.get, insertT is dict assignment and eraseT is dict.pop with a
default.  insertT places the new binding at the end after erasing the
key, so keys stay distinct in every table built from the empty one. -/

/-- dict.get k (src dict lookup). -/
def lookupT {α : Type} : List (String × α) → String → Option α
  | [], _ => none
  | (k, v) :: rest, key => if k = key then some v else lookupT rest key

/-- dict.pop(k, None). -/
def eraseT {α : Type} : List (String × α) → String → List (String × α)
  | [], _ => []
  | (a, b) :: rest, k =>
    if a = k then eraseT rest k else (a, b) :: eraseT rest k

/-- dict[k] = v. -/
def insertT {α : Type} (m : List (String × α)) (k : String) (v : α) :
    List (String × α) :=
  eraseT m k ++ [(k, v)]

/-- The two module-level dicts: accounts (line 22) and alerted
(line 32).  Alert states are the Python strings danger, warn, ok. -/
structure ServerState where
  accounts : List (String × Account)
  alerted : List (String × String)
deriving DecidableEq

/-- The state at module load: both dicts empty. -/
def initState : ServerState := ⟨[], []⟩

/-- A send_telegram call made by the monitor loop, tagged with the
account id the message is about and its kind (lines 108, 119, 129). -/
inductive Notif
  | danger (id : String)
  | warn (id : String)
  | recovered (id : String)
deriving DecidableEq

/-- The account id a notification is about. -/
def Notif.acct : Notif → String
  | .danger i => i
  | .warn i => i
  | .recovered i => i

/-- The notifications of one cycle that concern a given account. -/
def notifsFor (id : String) (ns : List Notif) : List Notif :=
  ns.filter (fun n => n.acct = id)

/-! ### The monitor loop (background_tasks, src/server.py 78-133) -/

/-- The body of the per-account iteration of one pass of
background_tasks (src/server.py 82-133): auto-cleanup of non-positive
balances, then the margin-alert state machine.  The accumulator carries
the shared state and the send_telegram calls made so far this pass. -/
def processAccount (dML wML : ℚ) (s : ServerState × List Notif)
    (acc_id : String) : ServerState × List Notif :=
  match lookupT s.1.accounts acc_id with
  | none => s
  | some acc =>
    if acc.balance.getD 0 ≤ 0 then
      (⟨eraseT s.1.accounts acc_id, eraseT s.1.alerted acc_id⟩, s.2)
    else
      match evaluate (acc.margin_level.getD 0) dML wML with
      | .unknown => s
      | .danger =>
        if lookupT s.1.alerted acc_id ≠ some "danger" then
          (⟨s.1.accounts, insertT s.1.alerted acc_id "danger"⟩,
            s.2 ++ [Notif.danger acc_id])
        else s
      | .warn =>
        if lookupT s.1.alerted acc_id ≠ some "warn" then
          (⟨s.1.accounts, insertT s.1.alerted acc_id "warn"⟩,
            s.2 ++ [Notif.warn acc_id])
        else s
      | .ok =>
        if lookupT s.1.alerted acc_id = some "danger" ∨
            lookupT s.1.alerted acc_id = some "warn" then
          (⟨s.1.accounts, insertT s.1.alerted acc_id "ok"⟩,
            s.2 ++ [Notif.recovered acc_id])
        else s

/-- One pass of the background loop: iterate over a snapshot of the
account ids (list(accounts.keys()), line 82), returning the new state
and the send_telegram calls of the pass. -/
def monitor_cycle (dML wML : ℚ) (st : ServerState) :
    ServerState × List Notif :=
  (st.accounts.map Prod.fst).foldl (processAccount dML wML) (st, [])

/-! ### The HTTP handlers -/

/-- The responses of the modelled handlers. -/
inductive HandlerResult
  | unauthorized
  | invalid_json
  | skipped
  | report_ok (account_id : String)
  | deleted (account_id : String)
  | not_found
deriving DecidableEq

/-- receive_report (src/server.py 141-161).  key is the X-API-Key header
value, body the decoded JSON (none for an undecodable body), now the
server clock rendering stamped into last_update. -/
def receive_report (api_key key : String) (body : Option Account)
    (now : String) (st : ServerState) : HandlerResult × ServerState :=
  if key ≠ api_key then (.unauthorized, st)
  else
    match body with
    | none => (.invalid_json, st)
    | some data =>
      if data.isEmptyDict then (.invalid_json, st)
      else
        let account_id := data.account_id.getD "unknown"
        if data.balance.getD 0 ≤ 0 then (.skipped, st)
        else
          let data' := normalize_account { data with last_update := some now }
          (.report_ok account_id,
            ⟨insertT st.accounts account_id data', st.alerted⟩)

/-- delete_account (src/server.py 183-192). -/
def delete_account (api_key key : String) (account_id : String)
    (st : ServerState) : HandlerResult × ServerState :=
  if key ≠ api_key then (.unauthorized, st)
  else if (lookupT st.accounts account_id).isSome then
    (.deleted account_id,
      ⟨eraseT st.accounts account_id, eraseT st.alerted account_id⟩)
  else (.not_found, st)

/-! ### Reachable states -/

/-- The operations that touch the shared tables: the two mutating
handlers and one pass of the monitor loop. -/
inductive Op
  | report (key : String) (body : Option Account) (now : String)
  | deleteAcc (key : String) (id : String)
  | cycle

/-- Apply one operation to the state. -/
def applyOp (api_key : String) (dML wML : ℚ) (st : ServerState) :
    Op → ServerState
  | .report key body now => (receive_report api_key key body now st).2
  | .deleteAcc key id => (delete_account api_key key id st).2
  | .cycle => (monitor_cycle dML wML st).1

/-- The state after a sequence of operations from module load. -/
def runOps (api_key : String) (dML wML : ℚ) (ops : List Op) : ServerState :=
  ops.foldl (applyOp api_key dML wML) initState

/-! ### Lemmas about the table operations -/

theorem lookupT_eraseT {α : Type} (m : List (String × α)) (k id : String) :
    lookupT (eraseT m k) id = if id = k then none else lookupT m id := by
  induction m with
  | nil => simp [eraseT, lookupT]
  | cons p rest ih =>
    obtain ⟨a, b⟩ := p
    by_cases hak : a = k
    · rw [eraseT, if_pos hak, ih]
      by_cases hik : id = k
      · simp [hik]
      · have hai : a ≠ id := fun h => hik (h ▸ hak)
        simp [lookupT, hik, hai]
    · rw [eraseT, if_neg hak]
      by_cases hai : a = id
      · have hik : ¬ id = k := fun h => hak (by rw [hai, h])
        simp [lookupT, hai, hik]
      · simp [lookupT, hai, ih]

theorem lookupT_append {α : Type} (m₁ m₂ : List (String × α)) (id : String) :
    lookupT (m₁ ++ m₂) id =
      match lookupT m₁ id with
      | some w => some w
      | none => lookupT m₂ id := by
  induction m₁ with
  | nil => simp [lookupT]
  | cons p rest ih =>
    obtain ⟨a, b⟩ := p
    by_cases hai : a = id <;> simp [lookupT, hai, ih]

theorem lookupT_insertT {α : Type} (m : List (String × α)) (k id : String)
    (v : α) :
    lookupT (insertT m k v) id = if id = k then some v else lookupT m id := by
  rw [insertT, lookupT_append, lookupT_eraseT]
  by_cases hik : id = k
  · simp [hik, lookupT]
  · have hki : ¬ k = id := fun h => hik h.symm
    cases h : lookupT m id <;> simp [hik, hki, h, lookupT]

theorem lookupT_some_mem {α : Type} {m : List (String × α)} {id : String}
    {v : α} (h : lookupT m id = some v) : id ∈ m.map Prod.fst := by
  induction m with
  | nil => simp [lookupT] at h
  | cons p rest ih =>
    obtain ⟨a, b⟩ := p
    by_cases hai : a = id
    · simp [hai]
    · simp [lookupT, hai] at h
      simp [ih h]

theorem keys_eraseT_sublist {α : Type} (m : List (String × α)) (k : String) :
    ((eraseT m k).map Prod.fst).Sublist (m.map Prod.fst) := by
  induction m with
  | nil => simp [eraseT]
  | cons p rest ih =>
    obtain ⟨a, b⟩ := p
    by_cases hak : a = k
    · rw [eraseT, if_pos hak]
      exact ih.trans (List.sublist_cons_self _ _)
    · rw [eraseT, if_neg hak]
      simpa using ih.cons₂ a

theorem not_mem_keys_eraseT {α : Type} (m : List (String × α)) (k : String) :
    k ∉ (eraseT m k).map Prod.fst := by
  induction m with
  | nil => simp [eraseT]
  | cons p rest ih =>
    obtain ⟨a, b⟩ := p
    by_cases hak : a = k
    · rw [eraseT, if_pos hak]
      exact ih
    · rw [eraseT, if_neg hak]
      intro h
      rcases (List.mem_map.mp h) with ⟨q, hq, hqk⟩
      rcases List.mem_cons.mp hq with hq1 | hq2
      · exact hak (by rw [hq1] at hqk; exact hqk)
      · exact ih (List.mem_map.mpr ⟨q, hq2, hqk⟩)

theorem keys_insertT_nodup {α : Type} {m : List (String × α)} (k : String)
    (v : α) (hnd : (m.map Prod.fst).Nodup) :
    ((insertT m k v).map Prod.fst).Nodup := by
  rw [insertT, List.map_append]
  apply List.Nodup.append
  · exact (keys_eraseT_sublist m k).nodup hnd
  · simp
  · intro a ha hb
    simp at hb
    rw [hb] at ha
    exact not_mem_keys_eraseT m k ha

theorem keys_eraseT_nodup {α : Type} {m : List (String × α)} (k : String)
    (hnd : (m.map Prod.fst).Nodup) :
    ((eraseT m k).map Prod.fst).Nodup :=
  (keys_eraseT_sublist m k).nodup hnd

/-! ### Lemmas about notification filtering -/

theorem notifsFor_nil (id : String) : notifsFor id [] = [] := rfl

theorem notifsFor_append (id : String) (ns ms : List Notif) :
    notifsFor id (ns ++ ms) = notifsFor id ns ++ notifsFor id ms := by
  simp [notifsFor, List.filter_append]

theorem notifsFor_single_own (id : String) (n : Notif) (h : n.acct = id) :
    notifsFor id [n] = [n] := by
  simp [notifsFor, h]

theorem notifsFor_single_other (id : String) (n : Notif) (h : n.acct ≠ id) :
    notifsFor id [n] = [] := by
  simp [notifsFor, h]

/-! ### Rounding and normalization lemmas -/

theorem round_half_even_nonneg {q : ℚ} (h : 0 ≤ q) : 0 ≤ round_half_even q := by
  have hf : (0 : ℤ) ≤ ⌊q⌋ := Int.le_floor.mpr (by exact_mod_cast h)
  rw [round_half_even]
  split_ifs <;> omega

theorem round2_nonneg {q : ℚ} (h : 0 ≤ q) : 0 ≤ round2 q := by
  rw [round2]
  apply div_nonneg _ (by norm_num)
  exact_mod_cast round_half_even_nonneg (by positivity)

theorem normalize_account_currency (d : Account) :
    (normalize_account d).currency = d.currency := by
  rw [normalize_account]
  split <;> rfl

theorem normalize_account_margin_level (d : Account) :
    (normalize_account d).margin_level = d.margin_level := by
  rw [normalize_account]
  split <;> rfl

theorem normalize_account_balance (d : Account) :
    (normalize_account d).balance =
      if d.currency.getD "USD" ∈ CENT_CURRENCIES then
        some (round2 (d.balance.getD 0 / 100))
      else d.balance := by
  rw [normalize_account]
  split <;> rfl

/-- A normalized record whose raw balance was positive has a
non-negative balance: the cent-conversion divides and rounds but a
positive rational over 100 still rounds to at least zero. -/
theorem normalize_account_balance_nonneg (d : Account)
    (h : 0 < d.balance.getD 0) :
    0 ≤ (normalize_account d).balance.getD 0 := by
  rw [normalize_account_balance]
  split
  · simpa using round2_nonneg (by positivity)
  · exact le_of_lt h

/-! ### The per-account alert step, abstracted

processAccount touches the tables only at the id it processes; the
observable effect there is captured by stepAlert: the resulting account
lookup, the resulting alert-state lookup, and the send_telegram calls
for that id. -/

/-- Observable effect of one iteration of the monitor body on the
account it processes, given its record and previous alert state. -/
def stepAlert (dML wML : ℚ) (id : String) (acc : Account)
    (prev : Option String) : Option Account × Option String × List Notif :=
  if acc.balance.getD 0 ≤ 0 then (none, none, [])
  else
    match evaluate (acc.margin_level.getD 0) dML wML with
    | .unknown => (some acc, prev, [])
    | .danger =>
      if prev ≠ some "danger" then
        (some acc, some "danger", [Notif.danger id])
      else (some acc, prev, [])
    | .warn =>
      if prev ≠ some "warn" then
        (some acc, some "warn", [Notif.warn id])
      else (some acc, prev, [])
    | .ok =>
      if prev = some "danger" ∨ prev = some "warn" then
        (some acc, some "ok", [Notif.recovered id])
      else (some acc, prev, [])

/-- processAccount at the id it processes realizes stepAlert. -/
theorem processAccount_at_id (dML wML : ℚ) (s : ServerState × List Notif)
    (id : String) (acc : Account)
    (hl : lookupT s.1.accounts id = some acc) :
    lookupT (processAccount dML wML s id).1.accounts id =
      (stepAlert dML wML id acc (lookupT s.1.alerted id)).1 ∧
    lookupT (processAccount dML wML s id).1.alerted id =
      (stepAlert dML wML id acc (lookupT s.1.alerted id)).2.1 ∧
    notifsFor id (processAccount dML wML s id).2 =
      notifsFor id s.2 ++ (stepAlert dML wML id acc (lookupT s.1.alerted id)).2.2 := by
  rw [processAccount, stepAlert, hl]
  by_cases hb : acc.balance.getD 0 ≤ 0
  · simp [hb, lookupT_eraseT]
  · simp only [if_neg hb]
    cases ht : evaluate (acc.margin_level.getD 0) dML wML
    · exact ⟨hl, rfl, by simp⟩
    · by_cases hp : lookupT s.1.alerted id = some "danger"
      · simp [hp, hl]
      · simp [hp, hl, lookupT_insertT, notifsFor_append,
          notifsFor_single_own, Notif.acct]
    · by_cases hp : lookupT s.1.alerted id = some "warn"
      · simp [hp, hl]
      · simp [hp, hl, lookupT_insertT, notifsFor_append,
          notifsFor_single_own, Notif.acct]
    · by_cases hp : lookupT s.1.alerted id = some "danger" ∨
          lookupT s.1.alerted id = some "warn"
      · simp [hp, hl, lookupT_insertT, notifsFor_append,
          notifsFor_single_own, Notif.acct]
      · simp [hp, hl]

/-- processAccount leaves every other id untouched: lookups at a
different id and that id's notifications are unchanged. -/
theorem processAccount_frame (dML wML : ℚ) (s : ServerState × List Notif)
    (k id : String) (hne : id ≠ k) :
    lookupT (processAccount dML wML s k).1.accounts id =
      lookupT s.1.accounts id ∧
    lookupT (processAccount dML wML s k).1.alerted id =
      lookupT s.1.alerted id ∧
    notifsFor id (processAccount dML wML s k).2 = notifsFor id s.2 := by
  rw [processAccount]
  cases hl : lookupT s.1.accounts k with
  | none => exact ⟨rfl, rfl, rfl⟩
  | some acc =>
    have hacct : ∀ n : Notif, n.acct = k →
        notifsFor id (s.2 ++ [n]) = notifsFor id s.2 := by
      intro n hn
      rw [notifsFor_append,
        notifsFor_single_other id n (by rw [hn]; exact fun h => hne h.symm)]
      simp
    by_cases hb : acc.balance.getD 0 ≤ 0
    · simp [hb, lookupT_eraseT, hne]
    · simp only [if_neg hb]
      split
      · exact ⟨rfl, rfl, rfl⟩
      · split
        · exact ⟨rfl, by simp [lookupT_insertT, hne],
            hacct (Notif.danger k) rfl⟩
        · exact ⟨rfl, rfl, rfl⟩
      · split
        · exact ⟨rfl, by simp [lookupT_insertT, hne],
            hacct (Notif.warn k) rfl⟩
        · exact ⟨rfl, rfl, rfl⟩
      · split
        · exact ⟨rfl, by simp [lookupT_insertT, hne],
            hacct (Notif.recovered k) rfl⟩
        · exact ⟨rfl, rfl, rfl⟩

/-- The state after processAccount is the old state, the old state with
the processed id erased from both tables, or the old state with only
that id's alert state replaced (and then the id was in the store). -/
theorem processAccount_state_cases (dML wML : ℚ)
    (s : ServerState × List Notif) (k : String) :
    (processAccount dML wML s k).1 = s.1 ∨
    (processAccount dML wML s k).1 =
      ⟨eraseT s.1.accounts k, eraseT s.1.alerted k⟩ ∨
    ∃ v, (processAccount dML wML s k).1 =
        ⟨s.1.accounts, insertT s.1.alerted k v⟩ ∧
      (lookupT s.1.accounts k).isSome = true := by
  cases hl : lookupT s.1.accounts k with
  | none =>
    rw [processAccount, hl]
    exact Or.inl rfl
  | some acc =>
    rw [processAccount, hl]
    by_cases hb : acc.balance.getD 0 ≤ 0
    · refine Or.inr (Or.inl ?_)
      simp [hb]
    · simp only [if_neg hb]
      split
      · exact Or.inl rfl
      · split
        · exact Or.inr (Or.inr ⟨"danger", rfl, rfl⟩)
        · exact Or.inl rfl
      · split
        · exact Or.inr (Or.inr ⟨"warn", rfl, rfl⟩)
        · exact Or.inl rfl
      · split
        · exact Or.inr (Or.inr ⟨"ok", rfl, rfl⟩)
        · exact Or.inl rfl

/-- Folding the monitor body over ids not containing a given id leaves
everything observable about that id unchanged. -/
theorem foldl_processAccount_frame (dML wML : ℚ) (keys : List String)
    (s : ServerState × List Notif) (id : String) (h : id ∉ keys) :
    lookupT (keys.foldl (processAccount dML wML) s).1.accounts id =
      lookupT s.1.accounts id ∧
    lookupT (keys.foldl (processAccount dML wML) s).1.alerted id =
      lookupT s.1.alerted id ∧
    notifsFor id (keys.foldl (processAccount dML wML) s).2 =
      notifsFor id s.2 := by
  induction keys generalizing s with
  | nil => exact ⟨rfl, rfl, rfl⟩
  | cons k ks ih =>
    have hne : id ≠ k := fun he => h (he ▸ List.mem_cons_self k ks)
    have hks : id ∉ ks := fun hm => h (List.mem_cons_of_mem k hm)
    obtain ⟨h1, h2, h3⟩ := processAccount_frame dML wML s k id hne
    obtain ⟨g1, g2, g3⟩ := ih (processAccount dML wML s k) hks
    rw [List.foldl_cons]
    exact ⟨g1.trans h1, g2.trans h2, g3.trans h3⟩

/-- Folding the monitor body never adds accounts: a record present
afterwards was present before, unchanged. -/
theorem foldl_accounts_shrink (dML wML : ℚ) (keys : List String)
    (s : ServerState × List Notif) (id : String) (acc : Account)
    (h : lookupT (keys.foldl (processAccount dML wML) s).1.accounts id =
      some acc) :
    lookupT s.1.accounts id = some acc := by
  induction keys generalizing s with
  | nil => exact h
  | cons k ks ih =>
    rw [List.foldl_cons] at h
    have hmid := ih (processAccount dML wML s k) h
    rcases processAccount_state_cases dML wML s k with hc | hc | ⟨v, hc, _⟩
    · rwa [hc] at hmid
    · rw [hc] at hmid
      rw [show (⟨eraseT s.1.accounts k, eraseT s.1.alerted k⟩ :
          ServerState).accounts = eraseT s.1.accounts k from rfl,
        lookupT_eraseT] at hmid
      by_cases hik : id = k
      · rw [if_pos hik] at hmid; cases hmid
      · rwa [if_neg hik] at hmid
    · rwa [hc] at hmid

/-- Folding the monitor body keeps the account keys distinct. -/
theorem foldl_keys_nodup (dML wML : ℚ) (keys : List String)
    (s : ServerState × List Notif)
    (hnd : (s.1.accounts.map Prod.fst).Nodup) :
    (((keys.foldl (processAccount dML wML) s).1.accounts).map Prod.fst).Nodup := by
  induction keys generalizing s with
  | nil => exact hnd
  | cons k ks ih =>
    rw [List.foldl_cons]
    apply ih
    rcases processAccount_state_cases dML wML s k with hc | hc | ⟨v, hc, _⟩ <;>
      rw [hc]
    · exact hnd
    · exact keys_eraseT_nodup k hnd
    · exact hnd

/-- The localization theorem for one monitor pass: for an account that
is in the store when the pass starts (keys distinct), the pass's effect
on that account's record, alert state and notifications is exactly
stepAlert on its record and previous alert state. -/
theorem monitor_cycle_localize (dML wML : ℚ) (st : ServerState)
    (id : String) (acc : Account)
    (hnd : (st.accounts.map Prod.fst).Nodup)
    (hl : lookupT st.accounts id = some acc) :
    lookupT (monitor_cycle dML wML st).1.accounts id =
      (stepAlert dML wML id acc (lookupT st.alerted id)).1 ∧
    lookupT (monitor_cycle dML wML st).1.alerted id =
      (stepAlert dML wML id acc (lookupT st.alerted id)).2.1 ∧
    notifsFor id (monitor_cycle dML wML st).2 =
      (stepAlert dML wML id acc (lookupT st.alerted id)).2.2 := by
  have hidmem : id ∈ st.accounts.map Prod.fst := lookupT_some_mem hl
  obtain ⟨l₁, l₂, hsplit⟩ := List.append_of_mem hidmem
  have hnd' : (l₁ ++ id :: l₂).Nodup := hsplit ▸ hnd
  have hpieces := List.nodup_append.mp hnd'
  have hid1 : id ∉ l₁ := fun hmem =>
    hpieces.2.2 hmem (List.mem_cons_self id l₂)
  have hid2 : id ∉ l₂ := (List.nodup_cons.mp hpieces.2.1).1
  rw [monitor_cycle, hsplit, List.foldl_append, List.foldl_cons]
  obtain ⟨f1, f2, f3⟩ :=
    foldl_processAccount_frame dML wML l₁ (st, ([] : List Notif)) id hid1
  have hl₁ : lookupT (l₁.foldl (processAccount dML wML)
      (st, ([] : List Notif))).1.accounts id = some acc := by
    rw [f1]; exact hl
  obtain ⟨p1, p2, p3⟩ := processAccount_at_id dML wML
    (l₁.foldl (processAccount dML wML) (st, ([] : List Notif))) id acc hl₁
  obtain ⟨g1, g2, g3⟩ := foldl_processAccount_frame dML wML l₂
    (processAccount dML wML
      (l₁.foldl (processAccount dML wML) (st, ([] : List Notif))) id) id hid2
  refine ⟨?_, ?_, ?_⟩
  · rw [g1, p1, f2]
  · rw [g2, p2, f2]
  · rw [g3, p3, f2, f3]
    simp [notifsFor_nil]

/-- One monitor pass never adds accounts. -/
theorem monitor_cycle_accounts_shrink (dML wML : ℚ) (st : ServerState)
    (id : String) (acc : Account)
    (h : lookupT (monitor_cycle dML wML st).1.accounts id = some acc) :
    lookupT st.accounts id = some acc :=
  foldl_accounts_shrink dML wML _ (st, []) id acc h

/-- One monitor pass keeps the account keys distinct. -/
theorem monitor_cycle_keys_nodup (dML wML : ℚ) (st : ServerState)
    (hnd : (st.accounts.map Prod.fst).Nodup) :
    (((monitor_cycle dML wML st).1.accounts).map Prod.fst).Nodup :=
  foldl_keys_nodup dML wML _ (st, []) hnd

/-! ### State invariants -/

/-- Every id with an alert state is in the account store. -/
def AlertedSub (st : ServerState) : Prop :=
  ∀ id, (lookupT st.alerted id).isSome = true →
    (lookupT st.accounts id).isSome = true

/-- Every stored record has a non-negative balance. -/
def BalNonneg (st : ServerState) : Prop :=
  ∀ id acc, lookupT st.accounts id = some acc → 0 ≤ acc.balance.getD 0

/-- The inductive invariant of the shared state: distinct account keys,
alert states only for stored accounts, non-negative balances. -/
def Inv (st : ServerState) : Prop :=
  (st.accounts.map Prod.fst).Nodup ∧ AlertedSub st ∧ BalNonneg st

theorem processAccount_alertedSub (dML wML : ℚ)
    (s : ServerState × List Notif) (k : String) (h : AlertedSub s.1) :
    AlertedSub (processAccount dML wML s k).1 := by
  rcases processAccount_state_cases dML wML s k with hc | hc | ⟨v, hc, hsome⟩
  · rw [hc]; exact h
  · rw [hc]
    intro id hid
    rw [show (⟨eraseT s.1.accounts k, eraseT s.1.alerted k⟩ :
        ServerState).alerted = eraseT s.1.alerted k from rfl,
      lookupT_eraseT] at hid
    rw [show (⟨eraseT s.1.accounts k, eraseT s.1.alerted k⟩ :
        ServerState).accounts = eraseT s.1.accounts k from rfl,
      lookupT_eraseT]
    by_cases hik : id = k
    · rw [if_pos hik] at hid; cases hid
    · rw [if_neg hik] at hid
      rw [if_neg hik]
      exact h id hid
  · rw [hc]
    intro id hid
    by_cases hik : id = k
    · rw [show (⟨s.1.accounts, insertT s.1.alerted k v⟩ :
        ServerState).accounts = s.1.accounts from rfl, hik]
      exact hsome
    · rw [show (⟨s.1.accounts, insertT s.1.alerted k v⟩ :
          ServerState).alerted = insertT s.1.alerted k v from rfl,
        lookupT_insertT, if_neg hik] at hid
      exact h id hid

theorem foldl_alertedSub (dML wML : ℚ) (keys : List String)
    (s : ServerState × List Notif) (h : AlertedSub s.1) :
    AlertedSub (keys.foldl (processAccount dML wML) s).1 := by
  induction keys generalizing s with
  | nil => exact h
  | cons k ks ih =>
    rw [List.foldl_cons]
    exact ih _ (processAccount_alertedSub dML wML s k h)

/-- One monitor pass preserves the invariant. -/
theorem monitor_cycle_inv (dML wML : ℚ) (st : ServerState) (h : Inv st) :
    Inv (monitor_cycle dML wML st).1 := by
  obtain ⟨hnd, hsub, hbal⟩ := h
  refine ⟨monitor_cycle_keys_nodup dML wML st hnd,
    foldl_alertedSub dML wML _ (st, []) hsub, ?_⟩
  intro id acc hl
  exact hbal id acc (monitor_cycle_accounts_shrink dML wML st id acc hl)

/-- receive_report preserves the invariant. -/
theorem receive_report_inv (api_key key : String) (body : Option Account)
    (now : String) (st : ServerState) (h : Inv st) :
    Inv (receive_report api_key key body now st).2 := by
  obtain ⟨hnd, hsub, hbal⟩ := h
  rw [receive_report.eq_def]
  split
  · exact ⟨hnd, hsub, hbal⟩
  · match body with
    | none => exact ⟨hnd, hsub, hbal⟩
    | some data =>
      simp only []
      split
      · exact ⟨hnd, hsub, hbal⟩
      · split
        · exact ⟨hnd, hsub, hbal⟩
        · rename_i hpos
          refine ⟨keys_insertT_nodup _ _ hnd, ?_, ?_⟩
          · intro id hid
            by_cases hik : id = data.account_id.getD "unknown"
            · rw [show (⟨insertT st.accounts (data.account_id.getD "unknown")
                  (normalize_account { data with last_update := some now }),
                  st.alerted⟩ : ServerState).accounts = _ from rfl,
                lookupT_insertT, if_pos hik]
              rfl
            · rw [show (⟨insertT st.accounts (data.account_id.getD "unknown")
                  (normalize_account { data with last_update := some now }),
                  st.alerted⟩ : ServerState).accounts = _ from rfl,
                lookupT_insertT, if_neg hik]
              exact hsub id hid
          · intro id acc hl
            rw [show (⟨insertT st.accounts (data.account_id.getD "unknown")
                (normalize_account { data with last_update := some now }),
                st.alerted⟩ : ServerState).accounts = _ from rfl,
              lookupT_insertT] at hl
            by_cases hik : id = data.account_id.getD "unknown"
            · rw [if_pos hik] at hl
              cases hl
              apply normalize_account_balance_nonneg
              simpa using not_le.mp hpos
            · rw [if_neg hik] at hl
              exact hbal id acc hl

/-- delete_account preserves the invariant. -/
theorem delete_account_inv (api_key key account_id : String)
    (st : ServerState) (h : Inv st) :
    Inv (delete_account api_key key account_id st).2 := by
  obtain ⟨hnd, hsub, hbal⟩ := h
  rw [delete_account]
  split
  · exact ⟨hnd, hsub, hbal⟩
  · split
    · refine ⟨keys_eraseT_nodup account_id hnd, ?_, ?_⟩
      · intro id hid
        rw [show (⟨eraseT st.accounts account_id, eraseT st.alerted
            account_id⟩ : ServerState).alerted = _ from rfl,
          lookupT_eraseT] at hid
        rw [show (⟨eraseT st.accounts account_id, eraseT st.alerted
            account_id⟩ : ServerState).accounts = _ from rfl,
          lookupT_eraseT]
        by_cases hik : id = account_id
        · rw [if_pos hik] at hid; cases hid
        · rw [if_neg hik] at hid
          rw [if_neg hik]
          exact hsub id hid
      · intro id acc hl
        rw [show (⟨eraseT st.accounts account_id, eraseT st.alerted
            account_id⟩ : ServerState).accounts = _ from rfl,
          lookupT_eraseT] at hl
        by_cases hik : id = account_id
        · rw [if_pos hik] at hl; cases hl
        · rw [if_neg hik] at hl
          exact hbal id acc hl
    · exact ⟨hnd, hsub, hbal⟩

/-- Every reachable state satisfies the invariant. -/
theorem runOps_inv (api_key : String) (dML wML : ℚ) (ops : List Op) :
    Inv (runOps api_key dML wML ops) := by
  suffices h : ∀ st, Inv st → Inv (ops.foldl (applyOp api_key dML wML) st) by
    refine h initState ⟨List.nodup_nil, ?_, ?_⟩
    · intro id hid
      simp [lookupT] at hid
    · intro id acc hl
      simp [lookupT] at hl
  induction ops with
  | nil => exact fun st h => h
  | cons op rest ih =>
    intro st h
    rw [List.foldl_cons]
    apply ih
    cases op with
    | report key body now => exact receive_report_inv api_key key body now st h
    | deleteAcc key id => exact delete_account_inv api_key key id st h
    | cycle => exact monitor_cycle_inv dML wML st h

/-! ### stepAlert characterizations -/

theorem stepAlert_cleanup (dML wML : ℚ) (id : String) (acc : Account)
    (prev : Option String) (hb : acc.balance.getD 0 ≤ 0) :
    stepAlert dML wML id acc prev = (none, none, []) := by
  rw [stepAlert, if_pos hb]

theorem stepAlert_unknown (dML wML : ℚ) (id : String) (acc : Account)
    (prev : Option String) (hb : 0 < acc.balance.getD 0)
    (ht : evaluate (acc.margin_level.getD 0) dML wML = Tier.unknown) :
    stepAlert dML wML id acc prev = (some acc, prev, []) := by
  rw [stepAlert, if_neg (not_le.mpr hb), ht]

theorem stepAlert_danger (dML wML : ℚ) (id : String) (acc : Account)
    (prev : Option String) (hb : 0 < acc.balance.getD 0)
    (ht : evaluate (acc.margin_level.getD 0) dML wML = Tier.danger) :
    stepAlert dML wML id acc prev =
      if prev ≠ some "danger" then (some acc, some "danger", [Notif.danger id])
      else (some acc, prev, []) := by
  rw [stepAlert, if_neg (not_le.mpr hb), ht]

theorem stepAlert_warn (dML wML : ℚ) (id : String) (acc : Account)
    (prev : Option String) (hb : 0 < acc.balance.getD 0)
    (ht : evaluate (acc.margin_level.getD 0) dML wML = Tier.warn) :
    stepAlert dML wML id acc prev =
      if prev ≠ some "warn" then (some acc, some "warn", [Notif.warn id])
      else (some acc, prev, []) := by
  rw [stepAlert, if_neg (not_le.mpr hb), ht]

theorem stepAlert_ok (dML wML : ℚ) (id : String) (acc : Account)
    (prev : Option String) (hb : 0 < acc.balance.getD 0)
    (ht : evaluate (acc.margin_level.getD 0) dML wML = Tier.ok) :
    stepAlert dML wML id acc prev =
      if prev = some "danger" ∨ prev = some "warn" then
        (some acc, some "ok", [Notif.recovered id])
      else (some acc, prev, []) := by
  rw [stepAlert, if_neg (not_le.mpr hb), ht]

/-! ### Derived fields of normalization -/

theorem normalize_account_is_cent (d : Account) :
    (normalize_account d).is_cent =
      some (decide (d.currency.getD "USD" ∈ CENT_CURRENCIES)) := by
  rw [normalize_account]
  split
  · rename_i h
    simp [h]
  · rename_i h
    simp [h]

theorem normalize_account_currency_display (d : Account) :
    (normalize_account d).currency_display =
      some (if d.currency.getD "USD" ∈ CENT_CURRENCIES then "USD (¢)"
        else d.currency.getD "USD") := by
  rw [normalize_account]
  split
  · rfl
  · rfl

/-! ### Default configuration (src/server.py 25-29) -/

/-- DANGER_ML default (line 28). -/
def DANGER_ML : ℚ := 150

/-- WARN_ML default (line 29). -/
def WARN_ML : ℚ := 250

/-! ### The claims -/

/-- C1: risk evaluation of a margin level ml: ml <= 0 yields unknown and
the monitor then skips the account (no notification, no alert-state
change, record kept); 0 < ml < danger yields danger; danger <= ml < warn
yields warn; warn <= ml yields ok; and with the default thresholds
evaluate 100 = danger, 200 = warn, 300 = ok, 0 = unknown. -/
theorem c1_risk_evaluation :
    (∀ ml dangerT warnT : ℚ,
      (ml ≤ 0 → evaluate ml dangerT warnT = Tier.unknown) ∧
      (0 < ml → ml < dangerT → evaluate ml dangerT warnT = Tier.danger) ∧
      (0 < ml → dangerT ≤ ml → ml < warnT →
        evaluate ml dangerT warnT = Tier.warn) ∧
      (0 < ml → dangerT ≤ ml → warnT ≤ ml →
        evaluate ml dangerT warnT = Tier.ok)) ∧
    evaluate 100 DANGER_ML WARN_ML = Tier.danger ∧
    evaluate 200 DANGER_ML WARN_ML = Tier.warn ∧
    evaluate 300 DANGER_ML WARN_ML = Tier.ok ∧
    evaluate 0 DANGER_ML WARN_ML = Tier.unknown ∧
    (∀ (dML wML : ℚ) (st : ServerState) (id : String) (acc : Account),
      (st.accounts.map Prod.fst).Nodup →
      lookupT st.accounts id = some acc →
      0 < acc.balance.getD 0 →
      acc.margin_level.getD 0 ≤ 0 →
      lookupT (monitor_cycle dML wML st).1.accounts id = some acc ∧
      lookupT (monitor_cycle dML wML st).1.alerted id =
        lookupT st.alerted id ∧
      notifsFor id (monitor_cycle dML wML st).2 = []) := by
  refine ⟨?_, by decide, by decide, by decide, by decide, ?_⟩
  · intro ml dangerT warnT
    refine ⟨?_, ?_, ?_, ?_⟩
    · intro h
      rw [evaluate, if_pos h]
    · intro h0 hd
      rw [evaluate, if_neg (not_le.mpr h0), if_pos hd]
    · intro h0 hd hw
      rw [evaluate, if_neg (not_le.mpr h0), if_neg (not_lt.mpr hd),
        if_pos hw]
    · intro h0 hd hw
      rw [evaluate, if_neg (not_le.mpr h0), if_neg (not_lt.mpr hd),
        if_neg (not_lt.mpr hw)]
  · intro dML wML st id acc hnd hl hb hml
    have ht : evaluate (acc.margin_level.getD 0) dML wML = Tier.unknown := by
      rw [evaluate, if_pos hml]
    obtain ⟨m1, m2, m3⟩ := monitor_cycle_localize dML wML st id acc hnd hl
    rw [stepAlert_unknown dML wML id acc _ hb ht] at m1 m2 m3
    exact ⟨m1, m2, m3⟩

/-- C1 witness: the concrete parts instantiated, and the skip part at a
store holding one account with margin level 0 and positive balance. -/
theorem c1_risk_evaluation_witness :
    evaluate 100 DANGER_ML WARN_ML = Tier.danger ∧
    (lookupT (monitor_cycle 150 250
        ⟨[("u", { emptyAccount with
          balance := some 50, margin_level := some 0 })], []⟩).1.accounts "u" =
      some { emptyAccount with balance := some 50, margin_level := some 0 } ∧
     lookupT (monitor_cycle 150 250
        ⟨[("u", { emptyAccount with
          balance := some 50, margin_level := some 0 })], []⟩).1.alerted "u" =
      lookupT ([] : List (String × String)) "u" ∧
     notifsFor "u" (monitor_cycle 150 250
        ⟨[("u", { emptyAccount with
          balance := some 50, margin_level := some 0 })], []⟩).2 = []) :=
  ⟨c1_risk_evaluation.2.1,
    c1_risk_evaluation.2.2.2.2.2 150 250
      ⟨[("u", { emptyAccount with
        balance := some 50, margin_level := some 0 })], []⟩ "u"
      { emptyAccount with balance := some 50, margin_level := some 0 }
      (by decide) (by decide) (by decide) (by decide)⟩

/-- A concrete healthy account with a dangerous margin level, used to
instantiate the general theorems. -/
def dangerAccount : Account :=
  { emptyAccount with
    account_id := some "a", balance := some 100,
    margin_level := some 100, currency := some "USD" }

/-- A store holding only dangerAccount, no alert state yet. -/
def dangerState : ServerState := ⟨[("a", dangerAccount)], []⟩

/-- C2: in any monitor cycle, for any stored account with positive
balance: a danger tier notifies exactly when the stored alert state was
not already danger, and leaves the state danger; a warn tier likewise
for warn; an ok tier notifies recovery exactly when the previous state
was danger or warn (setting ok) and is silent from none or ok; hence a
fresh account entering danger notifies exactly once, a repeated danger
cycle adds nothing, and none followed by ok notifies nothing. -/
theorem c2_alert_transitions (dML wML : ℚ) (st : ServerState) (id : String)
    (acc : Account) (hnd : (st.accounts.map Prod.fst).Nodup)
    (hl : lookupT st.accounts id = some acc)
    (hb : 0 < acc.balance.getD 0) :
    (evaluate (acc.margin_level.getD 0) dML wML = Tier.danger →
      notifsFor id (monitor_cycle dML wML st).2 =
        (if lookupT st.alerted id ≠ some "danger" then [Notif.danger id]
         else []) ∧
      lookupT (monitor_cycle dML wML st).1.alerted id = some "danger") ∧
    (evaluate (acc.margin_level.getD 0) dML wML = Tier.warn →
      notifsFor id (monitor_cycle dML wML st).2 =
        (if lookupT st.alerted id ≠ some "warn" then [Notif.warn id]
         else []) ∧
      lookupT (monitor_cycle dML wML st).1.alerted id = some "warn") ∧
    (evaluate (acc.margin_level.getD 0) dML wML = Tier.ok →
      notifsFor id (monitor_cycle dML wML st).2 =
        (if lookupT st.alerted id = some "danger" ∨
            lookupT st.alerted id = some "warn" then [Notif.recovered id]
         else []) ∧
      lookupT (monitor_cycle dML wML st).1.alerted id =
        (if lookupT st.alerted id = some "danger" ∨
            lookupT st.alerted id = some "warn" then some "ok"
         else lookupT st.alerted id)) ∧
    (lookupT st.alerted id = none →
      evaluate (acc.margin_level.getD 0) dML wML = Tier.danger →
      notifsFor id (monitor_cycle dML wML st).2 = [Notif.danger id] ∧
      notifsFor id (monitor_cycle dML wML
        (monitor_cycle dML wML st).1).2 = []) ∧
    (lookupT st.alerted id = none →
      evaluate (acc.margin_level.getD 0) dML wML = Tier.ok →
      notifsFor id (monitor_cycle dML wML st).2 = [] ∧
      lookupT (monitor_cycle dML wML st).1.alerted id = none) := by
  obtain ⟨m1, m2, m3⟩ := monitor_cycle_localize dML wML st id acc hnd hl
  refine ⟨?_, ?_, ?_, ?_, ?_⟩
  · intro ht
    rw [stepAlert_danger dML wML id acc _ hb ht] at m2 m3
    by_cases hp : lookupT st.alerted id ≠ some "danger"
    · rw [if_pos hp] at m2 m3
      rw [if_pos hp]
      exact ⟨m3, m2⟩
    · rw [if_neg hp] at m2 m3
      rw [if_neg hp]
      exact ⟨m3, m2.trans (not_ne_iff.mp hp)⟩
  · intro ht
    rw [stepAlert_warn dML wML id acc _ hb ht] at m2 m3
    by_cases hp : lookupT st.alerted id ≠ some "warn"
    · rw [if_pos hp] at m2 m3
      rw [if_pos hp]
      exact ⟨m3, m2⟩
    · rw [if_neg hp] at m2 m3
      rw [if_neg hp]
      exact ⟨m3, m2.trans (not_ne_iff.mp hp)⟩
  · intro ht
    rw [stepAlert_ok dML wML id acc _ hb ht] at m2 m3
    by_cases hp : lookupT st.alerted id = some "danger" ∨
        lookupT st.alerted id = some "warn"
    · rw [if_pos hp] at m2 m3
      rw [if_pos hp, if_pos hp]
      exact ⟨m3, m2⟩
    · rw [if_neg hp] at m2 m3
      rw [if_neg hp, if_neg hp]
      exact ⟨m3, m2⟩
  · intro hp ht
    rw [stepAlert_danger dML wML id acc _ hb ht] at m1 m2 m3
    have hne : lookupT st.alerted id ≠ some "danger" := by
      rw [hp]
      exact fun h => by cases h
    rw [if_pos hne] at m1 m2 m3
    refine ⟨m3, ?_⟩
    have hnd2 := monitor_cycle_keys_nodup dML wML st hnd
    obtain ⟨n1, n2, n3⟩ := monitor_cycle_localize dML wML
      (monitor_cycle dML wML st).1 id acc hnd2 m1
    rw [stepAlert_danger dML wML id acc _ hb ht] at n3
    rw [m2] at n3
    rw [if_neg (by simp)] at n3
    exact n3
  · intro hp ht
    rw [stepAlert_ok dML wML id acc _ hb ht] at m2 m3
    have hno : ¬ (lookupT st.alerted id = some "danger" ∨
        lookupT st.alerted id = some "warn") := by
      rw [hp]
      rintro (h | h) <;> cases h
    rw [if_neg hno] at m2 m3
    exact ⟨m3, m2.trans hp⟩

/-- C2 witness: a fresh account with margin level 100 under the default
thresholds notifies danger exactly once across two cycles. -/
theorem c2_alert_transitions_witness :
    notifsFor "a" (monitor_cycle 150 250 dangerState).2 =
      [Notif.danger "a"] ∧
    notifsFor "a" (monitor_cycle 150 250
      (monitor_cycle 150 250 dangerState).1).2 = [] :=
  (c2_alert_transitions 150 250 dangerState "a" dangerAccount
    (by decide) (by decide) (by decide)).2.2.2.1 (by decide) (by decide)

/-- C3: each monitor cycle removes every account whose stored balance is
non-positive at cycle start from both tables, performs no evaluation and
no notification for it, and afterwards every account left in the store
has positive balance; if alert states cover only stored accounts (as in
every reachable state), every id left in the alert table belongs to a
stored record with positive balance. -/
theorem c3_cleanup (dML wML : ℚ) (st : ServerState)
    (hnd : (st.accounts.map Prod.fst).Nodup) :
    (∀ id acc, lookupT st.accounts id = some acc →
      acc.balance.getD 0 ≤ 0 →
      lookupT (monitor_cycle dML wML st).1.accounts id = none ∧
      lookupT (monitor_cycle dML wML st).1.alerted id = none ∧
      notifsFor id (monitor_cycle dML wML st).2 = []) ∧
    (∀ id acc, lookupT (monitor_cycle dML wML st).1.accounts id = some acc →
      0 < acc.balance.getD 0) ∧
    (AlertedSub st →
      ∀ id, (lookupT (monitor_cycle dML wML st).1.alerted id).isSome = true →
        ∃ acc, lookupT (monitor_cycle dML wML st).1.accounts id = some acc ∧
          0 < acc.balance.getD 0) := by
  have hzero : ∀ id acc, lookupT st.accounts id = some acc →
      acc.balance.getD 0 ≤ 0 →
      lookupT (monitor_cycle dML wML st).1.accounts id = none ∧
      lookupT (monitor_cycle dML wML st).1.alerted id = none ∧
      notifsFor id (monitor_cycle dML wML st).2 = [] := by
    intro id acc hl hb
    obtain ⟨m1, m2, m3⟩ := monitor_cycle_localize dML wML st id acc hnd hl
    rw [stepAlert_cleanup dML wML id acc _ hb] at m1 m2 m3
    exact ⟨m1, m2, m3⟩
  have hpos : ∀ id acc,
      lookupT (monitor_cycle dML wML st).1.accounts id = some acc →
      0 < acc.balance.getD 0 := by
    intro id acc hl
    have hl0 := monitor_cycle_accounts_shrink dML wML st id acc hl
    by_contra hneg
    have hb : acc.balance.getD 0 ≤ 0 := not_lt.mp hneg
    obtain ⟨h1, _, _⟩ := hzero id acc hl0 hb
    rw [hl] at h1
    cases h1
  refine ⟨hzero, hpos, ?_⟩
  intro hsub id hid
  have hsub' : AlertedSub (monitor_cycle dML wML st).1 :=
    foldl_alertedSub dML wML _ (st, []) hsub
  have hacc := hsub' id hid
  cases hl : lookupT (monitor_cycle dML wML st).1.accounts id with
  | none => rw [hl] at hacc; cases hacc
  | some acc => exact ⟨acc, rfl, hpos id acc hl⟩

/-- C3 witness: a store with one zero-balance account carrying an alert
state: after the cycle both tables are empty of it and nothing is sent;
all remaining accounts (none) have positive balance. -/
theorem c3_cleanup_witness :
    lookupT (monitor_cycle 150 250
      ⟨[("z", { emptyAccount with balance := some 0 })],
        [("z", "danger")]⟩).1.accounts "z" = none ∧
    lookupT (monitor_cycle 150 250
      ⟨[("z", { emptyAccount with balance := some 0 })],
        [("z", "danger")]⟩).1.alerted "z" = none ∧
    notifsFor "z" (monitor_cycle 150 250
      ⟨[("z", { emptyAccount with balance := some 0 })],
        [("z", "danger")]⟩).2 = [] :=
  (c3_cleanup 150 250
    ⟨[("z", { emptyAccount with balance := some 0 })],
      [("z", "danger")]⟩ (by decide)).1 "z"
    { emptyAccount with balance := some 0 } (by decide) (by decide)

/-- C4: normalization of a record whose currency is a case-sensitive
member of the fixed minor-unit set divides the five monetary fields by
100 rounding to 2 decimals with missing fields defaulting to 0, maps
every basket entry the same way, and sets is_cent true and the fixed
display label; for a non-member it sets is_cent false, echoes the
currency into currency_display, and leaves all monetary fields and the
baskets unchanged. -/
theorem c4_normalization (data : Account) (c : String)
    (h : data.currency = some c) :
    (c ∈ CENT_CURRENCIES →
      (normalize_account data).balance =
        some (round2 (data.balance.getD 0 / 100)) ∧
      (normalize_account data).equity =
        some (round2 (data.equity.getD 0 / 100)) ∧
      (normalize_account data).margin =
        some (round2 (data.margin.getD 0 / 100)) ∧
      (normalize_account data).free_margin =
        some (round2 (data.free_margin.getD 0 / 100)) ∧
      (normalize_account data).floating =
        some (round2 (data.floating.getD 0 / 100)) ∧
      (normalize_account data).baskets =
        data.baskets.map (fun bs => bs.map normBasket) ∧
      (∀ b : Basket,
        (normBasket b).buy_profit =
          some (round2 (b.buy_profit.getD 0 / 100)) ∧
        (normBasket b).sell_profit =
          some (round2 (b.sell_profit.getD 0 / 100)) ∧
        (normBasket b).net_profit =
          some (round2 (b.net_profit.getD 0 / 100))) ∧
      (normalize_account data).is_cent = some true ∧
      (normalize_account data).currency_display = some "USD (¢)") ∧
    (c ∉ CENT_CURRENCIES →
      (normalize_account data).is_cent = some false ∧
      (normalize_account data).currency_display = some c ∧
      (normalize_account data).balance = data.balance ∧
      (normalize_account data).equity = data.equity ∧
      (normalize_account data).margin = data.margin ∧
      (normalize_account data).free_margin = data.free_margin ∧
      (normalize_account data).floating = data.floating ∧
      (normalize_account data).baskets = data.baskets) := by
  have hc : data.currency.getD "USD" = c := by rw [h]; rfl
  constructor
  · intro hmem
    rw [normalize_account]
    rw [hc, if_pos hmem]
    exact ⟨rfl, rfl, rfl, rfl, rfl, rfl, fun b => ⟨rfl, rfl, rfl⟩, rfl, rfl⟩
  · intro hmem
    rw [normalize_account]
    rw [hc, if_neg hmem]
    exact ⟨rfl, rfl, rfl, rfl, rfl, rfl, rfl, rfl⟩

/-- C4 witness: a record reporting currency USD (not in the set) passes
through with is_cent false and currency_display USD. -/
theorem c4_normalization_witness :
    (normalize_account dangerAccount).is_cent = some false ∧
    (normalize_account dangerAccount).currency_display = some "USD" ∧
    (normalize_account dangerAccount).balance = dangerAccount.balance ∧
    (normalize_account dangerAccount).equity = dangerAccount.equity ∧
    (normalize_account dangerAccount).margin = dangerAccount.margin ∧
    (normalize_account dangerAccount).free_margin =
      dangerAccount.free_margin ∧
    (normalize_account dangerAccount).floating = dangerAccount.floating ∧
    (normalize_account dangerAccount).baskets = dangerAccount.baskets :=
  (c4_normalization dangerAccount "USD" (by decide)).2 (by decide)

/-- C8: normalization is a deterministic pure function of its input, and
its derived currency_display and is_cent fields are stable: repeating
normalization on an already-normalized record yields the same
currency_display and is_cent (normalization never changes the currency
field it branches on). -/
theorem c8_normalize_deterministic (data : Account) :
    normalize_account data = normalize_account data ∧
    (normalize_account (normalize_account data)).is_cent =
      (normalize_account data).is_cent ∧
    (normalize_account (normalize_account data)).currency_display =
      (normalize_account data).currency_display := by
  refine ⟨rfl, ?_, ?_⟩
  · rw [normalize_account_is_cent, normalize_account_is_cent,
      normalize_account_currency]
  · rw [normalize_account_currency_display,
      normalize_account_currency_display, normalize_account_currency]

/-- A cent-currency report whose raw balance 0.4 passes the positive
balance gate but rounds to 0.00 after division by 100. -/
def centAccount : Account :=
  { emptyAccount with
    account_id := some "a", balance := some (2/5),
    currency := some "USC" }

/-- Evaluation fact for the counterexample: 0.4 divided by 100 rounds to
zero at 2 decimal places. -/
theorem round2_of_two_fifths : round2 ((2/5 : ℚ) / 100) = 0 := by
  have h1 : ((2 : ℚ)/5)/100 * 100 = 2/5 := by norm_num
  have h2 : ⌊(2/5 : ℚ)⌋ = 0 := by norm_num
  rw [round2, h1, round_half_even, h2]
  norm_num

/-- C5 counterexample: the ingest of centAccount is authenticated and
succeeds (report_ok), yet the stored record's balance is exactly 0, not
positive: a successful ingest can store a record with balance <= 0. -/
theorem c5_counterexample :
    (receive_report "k" "k" (some centAccount) "now" initState).1 =
      HandlerResult.report_ok "a" ∧
    (lookupT (receive_report "k" "k" (some centAccount) "now"
        initState).2.accounts "a").map (fun acc => acc.balance) =
      some (some 0) := by
  have hbal : (normalize_account
      { centAccount with last_update := some "now" }).balance = some 0 := by
    rw [normalize_account_balance]
    rw [show ({ centAccount with last_update := some "now" } :
        Account).currency.getD "USD" = "USC" from rfl]
    rw [if_pos (by decide : ("USC" : String) ∈ CENT_CURRENCIES)]
    rw [show ({ centAccount with last_update := some "now" } :
        Account).balance.getD 0 = 2/5 from rfl]
    rw [round2_of_two_fifths]
  have hrep : receive_report "k" "k" (some centAccount) "now" initState =
      (HandlerResult.report_ok "a",
        ⟨insertT initState.accounts "a"
          (normalize_account { centAccount with last_update := some "now" }),
          initState.alerted⟩) := by
    rw [receive_report.eq_def]
    rw [if_neg (by simp : ¬ ("k" : String) ≠ "k")]
    simp only []
    rw [if_neg (by decide : ¬ centAccount.isEmptyDict = true)]
    rw [if_neg (by
      rw [show centAccount.balance.getD 0 = 2/5 from rfl]
      norm_num : ¬ centAccount.balance.getD 0 ≤ 0)]
    rfl
  rw [hrep]
  refine ⟨rfl, ?_⟩
  rw [show lookupT (insertT initState.accounts "a"
      (normalize_account { centAccount with last_update := some "now" }))
        "a" =
      some (normalize_account
        { centAccount with last_update := some "now" }) by
    rw [lookupT_insertT, if_pos rfl]]
  simp only [Option.map_some']
  rw [hbal]

/-- C5 amended: every record in any reachable state of the store has a
non-negative balance (ingest rejects non-positive raw balances and the
monitor only removes records, but cent-currency conversion can round a
small positive balance down to exactly 0, which the next cycle prunes);
ingest never stores a strictly negative balance. -/
theorem c5_balance_nonneg (api_key : String) (dML wML : ℚ) (ops : List Op)
    (id : String) (acc : Account)
    (h : lookupT (runOps api_key dML wML ops).accounts id = some acc) :
    0 ≤ acc.balance.getD 0 :=
  (runOps_inv api_key dML wML ops).2.2 id acc h

/-- C5 witness: after ingesting the healthy USD account, the stored
record's balance is non-negative. -/
theorem c5_balance_nonneg_witness :
    0 ≤ ((normalize_account
      { dangerAccount with last_update := some "t" }).balance.getD 0) :=
  c5_balance_nonneg "k" 150 250 [Op.report "k" (some dangerAccount) "t"]
    "a" (normalize_account { dangerAccount with last_update := some "t" })
    (by decide)

/-- C6 counterexample: an authenticated report whose body is the empty
JSON object has balance <= 0 (the field defaults to 0), but the handler
answers invalid_json, not skipped: Python treats the empty dict as falsy
at the body check before the balance check. -/
theorem c6_counterexample :
    emptyAccount.balance.getD 0 ≤ 0 ∧
    (receive_report "k" "k" (some emptyAccount) "now" initState).1 =
      HandlerResult.invalid_json ∧
    (receive_report "k" "k" (some emptyAccount) "now" initState).1 ≠
      HandlerResult.skipped := by
  refine ⟨by decide, by decide, by decide⟩

/-- C6 amended: an authenticated report whose decoded body is a
non-empty object with balance <= 0 (a missing balance defaults to 0)
gets the skipped status with the state — both tables — unchanged; with
the empty object as body the handler instead answers invalid_json,
likewise leaving the state unchanged. -/
theorem c6_skip_nonpositive (api_key now : String) (data : Account)
    (st : ServerState) (hbal : data.balance.getD 0 ≤ 0) :
    (data.isEmptyDict = false →
      receive_report api_key api_key (some data) now st =
        (HandlerResult.skipped, st)) ∧
    (data.isEmptyDict = true →
      receive_report api_key api_key (some data) now st =
        (HandlerResult.invalid_json, st)) := by
  constructor
  · intro he
    rw [receive_report.eq_def]
    rw [if_neg (by simp : ¬ api_key ≠ api_key)]
    simp only []
    rw [he]
    simp only [Bool.false_eq_true, if_false]
    rw [if_pos hbal]
  · intro he
    rw [receive_report.eq_def]
    rw [if_neg (by simp : ¬ api_key ≠ api_key)]
    simp only []
    rw [he]
    simp only [if_true]

/-- C6 witness: a body reporting only balance 0 is skipped with the
state unchanged. -/
theorem c6_skip_nonpositive_witness :
    receive_report "k" "k"
      (some { emptyAccount with balance := some 0 }) "now" initState =
      (HandlerResult.skipped, initState) :=
  (c6_skip_nonpositive "k" "now" { emptyAccount with balance := some 0 }
    initState (by decide)).1 (by decide)

/-- C7: authenticated deletion of an id absent from the store answers
not_found and changes nothing; deletion of a present id answers deleted,
removes the record and its alert state, and touches no other id in
either table. -/
theorem c7_delete (api_key id : String) (st : ServerState) :
    (lookupT st.accounts id = none →
      delete_account api_key api_key id st = (HandlerResult.not_found, st)) ∧
    (∀ acc, lookupT st.accounts id = some acc →
      (delete_account api_key api_key id st).1 = HandlerResult.deleted id ∧
      lookupT (delete_account api_key api_key id st).2.accounts id = none ∧
      lookupT (delete_account api_key api_key id st).2.alerted id = none ∧
      (∀ id2, id2 ≠ id →
        lookupT (delete_account api_key api_key id st).2.accounts id2 =
          lookupT st.accounts id2 ∧
        lookupT (delete_account api_key api_key id st).2.alerted id2 =
          lookupT st.alerted id2)) := by
  constructor
  · intro h
    rw [delete_account]
    rw [if_neg (by simp : ¬ api_key ≠ api_key)]
    rw [if_neg (by rw [h]; simp)]
  · intro acc h
    have hrw : delete_account api_key api_key id st =
        (HandlerResult.deleted id,
          ⟨eraseT st.accounts id, eraseT st.alerted id⟩) := by
      rw [delete_account]
      rw [if_neg (by simp : ¬ api_key ≠ api_key)]
      rw [if_pos (by rw [h]; rfl)]
    rw [hrw]
    refine ⟨rfl, ?_, ?_, ?_⟩
    · rw [show (⟨eraseT st.accounts id, eraseT st.alerted id⟩ :
          ServerState).accounts = eraseT st.accounts id from rfl,
        lookupT_eraseT, if_pos rfl]
    · rw [show (⟨eraseT st.accounts id, eraseT st.alerted id⟩ :
          ServerState).alerted = eraseT st.alerted id from rfl,
        lookupT_eraseT, if_pos rfl]
    · intro id2 hne
      constructor
      · rw [show (⟨eraseT st.accounts id, eraseT st.alerted id⟩ :
            ServerState).accounts = eraseT st.accounts id from rfl,
          lookupT_eraseT, if_neg hne]
      · rw [show (⟨eraseT st.accounts id, eraseT st.alerted id⟩ :
            ServerState).alerted = eraseT st.alerted id from rfl,
          lookupT_eraseT, if_neg hne]

/-- C7 witness: deleting a missing id from the empty store answers
not_found with the state unchanged; deleting the only account removes
it and its alert state and leaves an unrelated id untouched. -/
theorem c7_delete_witness :
    delete_account "k" "k" "ghost" initState =
      (HandlerResult.not_found, initState) ∧
    (delete_account "k" "k" "a"
      ⟨[("a", dangerAccount)], [("a", "danger")]⟩).1 =
      HandlerResult.deleted "a" ∧
    lookupT (delete_account "k" "k" "a"
      ⟨[("a", dangerAccount)], [("a", "danger")]⟩).2.accounts "a" = none ∧
    lookupT (delete_account "k" "k" "a"
      ⟨[("a", dangerAccount)], [("a", "danger")]⟩).2.alerted "a" = none :=
  ⟨(c7_delete "k" "ghost" initState).1 (by decide),
    ((c7_delete "k" "a" ⟨[("a", dangerAccount)], [("a", "danger")]⟩).2
      dangerAccount (by decide)).1,
    ((c7_delete "k" "a" ⟨[("a", dangerAccount)], [("a", "danger")]⟩).2
      dangerAccount (by decide)).2.1,
    ((c7_delete "k" "a" ⟨[("a", dangerAccount)], [("a", "danger")]⟩).2
      dangerAccount (by decide)).2.2.1⟩

/-- C9: in every reachable state, every id with an alert-state entry is
also present in the account store. -/
theorem c9_alerted_subset (api_key : String) (dML wML : ℚ) (ops : List Op)
    (id : String)
    (h : (lookupT (runOps api_key dML wML ops).alerted id).isSome = true) :
    (lookupT (runOps api_key dML wML ops).accounts id).isSome = true :=
  (runOps_inv api_key dML wML ops).2.1 id h

/-- C9 witness: after ingesting a dangerous account and one monitor
pass, the id holds an alert state and is still stored. -/
theorem c9_alerted_subset_witness :
    (lookupT (runOps "k" 150 250
      [Op.report "k" (some dangerAccount) "t", Op.cycle]).alerted
        "a").isSome = true ∧
    (lookupT (runOps "k" 150 250
      [Op.report "k" (some dangerAccount) "t", Op.cycle]).accounts
        "a").isSome = true :=
  ⟨by decide,
    c9_alerted_subset "k" 150 250
      [Op.report "k" (some dangerAccount) "t", Op.cycle] "a" (by decide)⟩

/-- C10: the health endpoint reports the notifier configured exactly
when the Telegram token is non-empty, ignoring the chat id, while
send_telegram posts exactly when both token and chat id are non-empty;
so with a token but no chat id, health says configured while every send
is a silent no-op. -/
theorem c10_health_vs_send (token chat message : String) :
    (health_telegram token = "configured" ↔ token ≠ "") ∧
    ((send_telegram token chat message).isSome = true ↔
      (token ≠ "" ∧ chat ≠ "")) ∧
    (token ≠ "" →
      send_telegram token "" message = none ∧
      health_telegram token = "configured") := by
  refine ⟨?_, ?_, ?_⟩
  · rw [health_telegram]
    by_cases h : token = "" <;> simp [h]
  · rw [send_telegram]
    by_cases h1 : token = "" <;> by_cases h2 : chat = "" <;>
      simp [h1, h2]
  · intro h
    exact ⟨by rw [send_telegram]; simp, by rw [health_telegram]; simp [h]⟩

/-- C10 witness: with token t and empty chat id, health reports
configured and a send is a no-op. -/
theorem c10_health_vs_send_witness :
    send_telegram "t" "" "msg" = none ∧
    health_telegram "t" = "configured" :=
  (c10_health_vs_send "t" "" "msg").2.2 (by decide)

end MT4
